import Mathlib

/-!
Shallow embedding of the subscription & balance ledger of the
cable-subscriber-manager repository, together with proofs of the spec's
testable properties.

The repository contains two parallel implementation variants:
* a browser-local-storage variant (`src/lib/storage.ts`, `Billing.tsx`,
  `CancelSubscriptionDialog.tsx`), and
* a hosted-backend variant (`AddPackageSubscriptionDialog.tsx`,
  `SubscriberDetail.tsx`, the page in `src/unnamed/part_009`, the dialog in
  `src/unnamed/part_005`, and `src/lib/subscriptionUtils.ts`).

Both are embedded below.  Decimal amounts are modelled as rationals;
JavaScript `Date` values that are used as calendar days are modelled as
(year, month, day) triples with the JavaScript normalization semantics
(UTC is assumed throughout), and millisecond timestamps as integers.
-/

namespace CableSub

/-! ## Calendar dates and JavaScript month arithmetic -/

/-- A calendar date, as produced by `new Date(...)` / `toISOString` in UTC.
`month` ranges over 1..12 and `day` over 1..31 for valid dates. -/
structure Date where
  year : Nat
  month : Nat
  day : Nat
deriving DecidableEq, Repr

/-- Gregorian leap-year test, as implemented by the JavaScript `Date` class. -/
def isLeapYear (y : Nat) : Bool :=
  (y % 4 == 0 && y % 100 != 0) || (y % 400 == 0)

/-- Number of days in a month of the proleptic Gregorian calendar. -/
def daysInMonth (y m : Nat) : Nat :=
  if m = 2 then (if isLeapYear y then 29 else 28)
  else if m = 4 ∨ m = 6 ∨ m = 9 ∨ m = 11 then 30
  else 31

/-- JavaScript `Date` normalization of a (year, month, day) triple whose day
component may exceed the month length (as happens after `setMonth`): the
excess days roll over into the following month.  A single roll suffices for
the day values (≤ 31) that arise from `setMonth` on a real date, since every
month has at least 28 days. -/
def resolveDayOverflow (y m d : Nat) : Date :=
  if d ≤ daysInMonth y m then ⟨y, m, d⟩
  else if m = 12 then ⟨y + 1, 1, d - daysInMonth y m⟩
  else ⟨y, m + 1, d - daysInMonth y m⟩

/-- Semantics of `date.setMonth(date.getMonth() + delta)` on a date with
month 1..12: the target month is `month + delta` (normalized into the year),
and the day is kept, rolling any overflow into the following month. -/
def setMonthAdd (dt : Date) (delta : Nat) : Date :=
  resolveDayOverflow (dt.year + ((dt.month - 1) + delta) / 12)
    (((dt.month - 1) + delta) % 12 + 1) dt.day

/-- Semantics of `date.setFullYear(date.getFullYear() + delta)`: the year
advances and the day overflow (Feb 29 in a non-leap target year) rolls into
March. -/
def setYearAdd (dt : Date) (delta : Nat) : Date :=
  resolveDayOverflow (dt.year + delta) dt.month dt.day

inductive BillingCycle where
  | monthly
  | quarterly
  | semiAnnually
  | yearly
deriving DecidableEq, Repr

/-- Months each billing cycle advances (the spec table
monthly:+1mo, quarterly:+3mo, semi-annually:+6mo, yearly:+1yr). -/
def cycleMonths : BillingCycle → Nat
  | .monthly => 1
  | .quarterly => 3
  | .semiAnnually => 6
  | .yearly => 12

/-- First day of the month reached from `d` by advancing `k` months. -/
def targetMonthAnchor (d : Date) (k : Nat) : Date :=
  ⟨d.year + ((d.month - 1) + k) / 12, ((d.month - 1) + k) % 12 + 1, 1⟩

/-- Embedding of `calculateNextBillingDate` from `src/lib/storage.ts`
(lines 446-468): a `switch` on the cycle that calls `setMonth(+1/+3/+6)` or
`setFullYear(+1)` and returns the resulting calendar date. -/
def calculateNextBillingDate (d : Date) : BillingCycle → Date
  | .monthly => setMonthAdd d 1
  | .quarterly => setMonthAdd d 3
  | .semiAnnually => setMonthAdd d 6
  | .yearly => setYearAdd d 1

/-- A date actually representable by a JavaScript `Date`. -/
def ValidDate (d : Date) : Prop :=
  1 ≤ d.month ∧ d.month ≤ 12 ∧ 1 ≤ d.day ∧ d.day ≤ daysInMonth d.year d.month

instance : DecidablePred ValidDate := fun d => by
  unfold ValidDate; infer_instance

/-- Number of months elapsed since year 0; orders dates up to the month. -/
def monthIndex (d : Date) : Nat := 12 * d.year + (d.month - 1)

/-- Chronological key: for dates with `day ≤ 31` this orders exactly like the
underlying millisecond timestamp. -/
def dateKey (d : Date) : Nat := 32 * monthIndex d + d.day

/-- Comparison `new Date(a) <= new Date(b)` on calendar days. -/
def dateLe (a b : Date) : Bool := dateKey a ≤ dateKey b

/-! ## Local-storage variant: data model -/

/-- Transaction type of the local-storage variant; `src/lib/storage.ts`
line 36 admits only these two values. -/
inductive STxType where
  | payment
  | charge
deriving DecidableEq, Repr

/-- A `Transaction` record (`src/lib/storage.ts` lines 32-40).  The stored
date string is kept opaque. -/
structure STransaction where
  id : String
  subscriberId : String
  subscriberName : String
  type : STxType
  amount : ℚ
  description : String
  date : String
deriving DecidableEq, Repr

/-- Subscription status; the storage variant declares only
active/expired (`storage.ts` line 8), the hosted variant additionally
cancelled (`subscriptionUtils.ts` line 12). -/
inductive SubStatus where
  | active
  | expired
  | cancelled
deriving DecidableEq, Repr

/-- A `SubscriptionEntry` of the storage variant (`storage.ts` lines 1-10);
dates are the calendar days the stored ISO strings denote, and
`subscribedAt` equals `startDate` at every creation site. -/
structure SSubEntry where
  id : String
  packName : String
  packPrice : ℚ
  startDate : Date
  endDate : Date
  duration : Nat
  status : SubStatus
  subscribedAt : Date
deriving DecidableEq, Repr

/-- A `Subscriber` record (`storage.ts` lines 12-30).  Contact and location
fields that no ledger operation reads or writes (mobile, stbNumber, region,
coordinates, createdAt, housePicture) are omitted; the optional JS fields
are modelled with `Option`, and the truthiness test on `autoChargeEnabled`
with `Bool`. -/
structure Subscriber where
  id : String
  name : String
  pack : String
  balance : ℚ
  billingCycle : Option BillingCycle
  nextBillingDate : Option Date
  autoChargeEnabled : Bool
  lastBillingDate : Option Date
  subscriptions : Option (List SSubEntry)
  currentSubscription : Option SSubEntry
deriving DecidableEq, Repr

/-- A `Pack` record (`storage.ts` lines 42-46). -/
structure Pack where
  id : String
  name : String
  price : ℚ
deriving DecidableEq, Repr

/-- The localStorage contents relevant to the ledger. -/
structure SState where
  subscribers : List Subscriber
  transactions : List STransaction
deriving DecidableEq, Repr

/-- Replace the first element satisfying the test, as the
findIndex-and-assign pattern of `updateSubscriber` / `updateTransaction`
does; when nothing matches, the list is unchanged. -/
def updateFirst {α : Type} : List α → (α → Bool) → (α → α) → List α
  | [], _, _ => []
  | x :: rest, p, f => if p x then f x :: rest else x :: updateFirst rest p f

/-! ## Local-storage variant: transaction log and balance -/

/-- Caller-supplied arguments of one `addTransaction` call, together with
the identifier and date string the function generates
(`crypto.randomUUID()` and `formatISTDate()`). -/
structure TxIn where
  subscriberId : String
  subscriberName : String
  type : STxType
  amount : ℚ
  description : String
  newId : String
  newDate : String
deriving DecidableEq, Repr

/-- The `Transaction` record an `addTransaction` call appends. -/
def TxIn.toTx (i : TxIn) : STransaction :=
  ⟨i.newId, i.subscriberId, i.subscriberName, i.type, i.amount,
    i.description, i.newDate⟩

/-- Embedding of `addTransaction` (`storage.ts` lines 191-210): append the
new transaction, then — only when some subscriber has the given id — add
`amount` for a payment or subtract it for a charge onto that subscriber
balance.  A missing subscriber leaves every balance untouched while the
ledger entry is still appended and returned. -/
def addTransaction (st : SState) (i : TxIn) : SState × STransaction :=
  let newTx := i.toTx
  let transactions := st.transactions ++ [newTx]
  let subscribers :=
    match st.subscribers.find? (fun s => s.id == i.subscriberId) with
    | some _ =>
        let delta := match i.type with
          | .payment => i.amount
          | .charge => -i.amount
        updateFirst st.subscribers (fun s => s.id == i.subscriberId)
          (fun s => { s with balance := s.balance + delta })
    | none => st.subscribers
  (⟨subscribers, transactions⟩, newTx)

/-- A `Partial<Transaction>` value passed to `updateTransaction`. -/
structure TxPatch where
  id : Option String
  subscriberId : Option String
  subscriberName : Option String
  type : Option STxType
  amount : Option ℚ
  description : Option String
  date : Option String
deriving DecidableEq, Repr

/-- The all-absent patch. -/
def TxPatch.empty : TxPatch := ⟨none, none, none, none, none, none, none⟩

/-- Spread `{ ...oldTransaction, ...updates }`. -/
def TxPatch.merge (t : STransaction) (u : TxPatch) : STransaction :=
  ⟨u.id.getD t.id, u.subscriberId.getD t.subscriberId,
    u.subscriberName.getD t.subscriberName, u.type.getD t.type,
    u.amount.getD t.amount, u.description.getD t.description,
    u.date.getD t.date⟩

/-- Signed contribution of a stored transaction to the subscriber balance,
as `addTransaction` applies it: payments add, charges subtract. -/
def ledgerEffect (t : STransaction) : ℚ :=
  match t.type with
  | .payment => t.amount
  | .charge => -t.amount

/-- Embedding of `updateTransaction` (`storage.ts` lines 216-237): locate
the transaction; on the first matching subscriber of the OLD record add
`oldAmount + newAmount`, where `oldAmount` reverses the old effect and
`newAmount` applies the new one; then overwrite the stored transaction. -/
def updateTransaction (st : SState) (txId : String) (u : TxPatch) :
    SState × Option STransaction :=
  match st.transactions.find? (fun t => t.id == txId) with
  | none => (st, none)
  | some oldT =>
      let newT := TxPatch.merge oldT u
      let oldAmount : ℚ := match oldT.type with
        | .payment => -oldT.amount
        | .charge => oldT.amount
      let newAmount : ℚ := match newT.type with
        | .payment => newT.amount
        | .charge => -newT.amount
      let subscribers :=
        match st.subscribers.find? (fun s => s.id == oldT.subscriberId) with
        | some _ =>
            updateFirst st.subscribers (fun s => s.id == oldT.subscriberId)
              (fun s => { s with balance := s.balance + oldAmount + newAmount })
        | none => st.subscribers
      let transactions :=
        updateFirst st.transactions (fun t => t.id == txId) (fun _ => newT)
      (⟨subscribers, transactions⟩, some newT)

/-- Embedding of `getPackPrice` (`storage.ts` lines 471-474): the price of
the first pack with the given name, with `|| 0` collapsing both a missing
pack and a zero price to 0. -/
def getPackPrice (packs : List Pack) (packName : String) : ℚ :=
  match packs.find? (fun p => p.name == packName) with
  | some p => if p.price = 0 then 0 else p.price
  | none => 0

/-! ## Local-storage variant: auto-billing batch (`src/pages/Billing.tsx`) -/

/-- Status field of a `BillingHistory` entry (`storage.ts` line 83). -/
inductive BillingStatus where
  | scheduled
  | charged
  | failed
deriving DecidableEq, Repr

/-- The observable outcome `processAutoBilling` produces for one charged
subscriber: the appended transaction kind and amount, the billing-history
status, and the due date recorded in the history entry. -/
structure BillRecord where
  txType : STxType
  amount : ℚ
  entryStatus : BillingStatus
  dueDate : Date
deriving DecidableEq, Repr

/-- Embedding of one iteration of the `subscribers.forEach` loop in
`processAutoBilling` (`Billing.tsx` lines 50-93).  A subscriber is skipped
unless auto-charge is enabled and both the next billing date and the cycle
are set; a due subscriber is charged the pack price, with the next billing
date recomputed from today.  The net balance written is
`subscriber.balance - amount`: `addTransaction` first stores exactly that
value and the subsequent `updateSubscriber` overwrites it with the same
number computed from the captured subscriber object. -/
def billStep (packs : List Pack) (today : Date) (s : Subscriber) :
    Subscriber × Option BillRecord :=
  if !s.autoChargeEnabled then (s, none)
  else
    match s.nextBillingDate, s.billingCycle with
    | some nbd, some cycle =>
        if dateLe nbd today then
          let amount := getPackPrice packs s.pack
          ({ s with
              balance := s.balance - amount,
              nextBillingDate := some (calculateNextBillingDate today cycle),
              lastBillingDate := some today },
            some ⟨.charge, amount, .charged, nbd⟩)
        else (s, none)
    | _, _ => (s, none)

/-- One full `processAutoBilling` pass over the captured subscriber list. -/
def runAutoBilling (packs : List Pack) (today : Date)
    (subs : List Subscriber) : List (Subscriber × Option BillRecord) :=
  subs.map (billStep packs today)

/-! ## Local-storage variant: subscription management -/

/-- Embedding of `addSubscriptionToSubscriber` (`storage.ts` lines 477-518):
if no subscriber has the id, nothing happens; otherwise every existing
history entry is rewritten to expired, a fresh active entry (with the pack
price snapshot and `endDate = now + duration months` by `setMonth`
arithmetic) is appended and installed as the current subscription, and the
subscriber pack is updated.  The function signals no error in any case. -/
def addSubscriptionToSubscriber (subscribers : List Subscriber)
    (packs : List Pack) (subscriberId packName : String) (duration : Nat)
    (now : Date) (newId : String) : List Subscriber :=
  match subscribers.find? (fun s => s.id == subscriberId) with
  | none => subscribers
  | some _ =>
      let packPrice := getPackPrice packs packName
      let newSub : SSubEntry :=
        ⟨newId, packName, packPrice, now, setMonthAdd now duration, duration,
          .active, now⟩
      updateFirst subscribers (fun s => s.id == subscriberId) (fun s =>
        let previous := (s.subscriptions.getD []).map
          (fun e => { e with status := SubStatus.expired })
        { s with
            subscriptions := some (previous ++ [newSub]),
            currentSubscription := some newSub,
            pack := packName })

/-! ## Hosted-backend variant: subscription entries and the expiry sweep -/

/-- A `SubscriptionEntry` as the hosted variant stores it
(`subscriptionUtils.ts` lines 5-14).  The start/end/subscribed timestamps
are epoch milliseconds, the unit in which the code compares them. -/
structure HSubEntry where
  id : String
  packName : String
  packPrice : ℚ
  startMs : ℤ
  endMs : ℤ
  duration : Nat
  status : SubStatus
  subscribedAtMs : ℤ
deriving DecidableEq, Repr

/-- Embedding of `isSubscriptionActive` (`subscriptionUtils.ts` lines
19-25): false for a missing subscription, otherwise the end timestamp must
be strictly in the future. -/
def isSubscriptionActive (sub : Option HSubEntry) (nowMs : ℤ) : Bool :=
  match sub with
  | none => false
  | some s => nowMs < s.endMs

/-- Result triple of `processSubscriberData`. -/
structure SweepResult where
  needsUpdate : Bool
  current : Option HSubEntry
  history : List HSubEntry
deriving DecidableEq, Repr

/-- Embedding of `processSubscriberData` (`subscriptionUtils.ts` lines
56-107): with no current subscription, or a still-active one, nothing needs
updating; an expired current subscription is cleared and written into the
history with status expired — replacing the entry of the same id when one
exists, appending otherwise. -/
def processSubscriberData (current : Option HSubEntry)
    (history : List HSubEntry) (nowMs : ℤ) : SweepResult :=
  match current with
  | none => ⟨false, none, history⟩
  | some c =>
      if isSubscriptionActive (some c) nowMs then ⟨false, some c, history⟩
      else
        let expiredSub := { c with status := SubStatus.expired }
        let updatedHistory :=
          if history.any (fun h => h.id == c.id) then
            history.map (fun h => if h.id == c.id then expiredSub else h)
          else history ++ [expiredSub]
        ⟨true, none, updatedHistory⟩

/-! ## Hosted-backend variant: subscriber row and the ledger operations -/

/-- The ledger-relevant columns of a hosted `subscribers` row, as
`handleAddSubscriber` in `src/unnamed/part_009` initializes them
(current_pack null, current_subscription null, empty history). -/
structure HostedSubscriber where
  currentPack : Option String
  current : Option HSubEntry
  history : List HSubEntry
  balance : ℚ
deriving DecidableEq, Repr

/-- A freshly registered hosted subscriber with opening balance `b0`
(`handleAddSubscriber` passes 0). -/
def HostedSubscriber.init (b0 : ℚ) : HostedSubscriber := ⟨none, none, [], b0⟩

/-- Embedding of `addNewSubscription` in
`AddPackageSubscriptionDialog.tsx` (lines 87-151): every history entry is
rewritten to expired, the new active entry `e` is appended and installed as
current, the pack name recorded, and the balance increased by
`packPrice × duration` (the dialog also inserts a matching charge
transaction row, not part of the subscriber record). -/
def addNewSubscription (s : HostedSubscriber) (e : HSubEntry) :
    HostedSubscriber :=
  { currentPack := some e.packName,
    current := some e,
    history := s.history.map (fun h => { h with status := SubStatus.expired })
      ++ [e],
    balance := s.balance + e.packPrice * e.duration }

/-- The new-subscription record the dialog builds (status active,
price/name snapshot, `endDate = startDate + duration months`). -/
def mkDialogEntry (newId packName : String) (price : ℚ) (duration : Nat)
    (startMs endMs subscribedAtMs : ℤ) : HSubEntry :=
  ⟨newId, packName, price, startMs, endMs, duration, .active, subscribedAtMs⟩

/-- Embedding of the `hasActiveSubscription` check of the dialog (lines
64-67): a current subscription must exist and still be active. -/
def hasActiveSubscription (s : HostedSubscriber) (nowMs : ℤ) : Bool :=
  match s.current with
  | some c => isSubscriptionActive (some c) nowMs
  | none => false

/-- Embedding of `handleSubmit` (dialog lines 69-85): when the subscriber
still has an active subscription the submission is rejected with a toast
and nothing changes; otherwise `addNewSubscription` runs.  The boolean
records whether the call was rejected. -/
def handleSubmit (s : HostedSubscriber) (nowMs : ℤ) (e : HSubEntry) :
    HostedSubscriber × Bool :=
  if hasActiveSubscription s nowMs then (s, true)
  else (addNewSubscription s e, false)

/-- Embedding of `handleCancelSubscription` in `SubscriberDetail.tsx`
(lines 101-145): with no current subscription nothing happens; otherwise
the history entry with the current id is marked cancelled, the current
subscription cleared, and — only for a positive refund — the balance is
increased by the refund (the code also inserts a payment transaction row
in that case). -/
def handleCancelSubscription (s : HostedSubscriber) (refund : ℚ) :
    HostedSubscriber :=
  match s.current with
  | none => s
  | some c =>
      { s with
        current := none,
        history := s.history.map (fun h =>
          if h.id == c.id then { h with status := SubStatus.cancelled } else h),
        balance := if 0 < refund then s.balance + refund else s.balance }

/-- Application of the expiry sweep to one subscriber: the caller of
`processSubscriberData` writes the returned updates back exactly when
`needsUpdate` is set. -/
def applySweep (s : HostedSubscriber) (nowMs : ℤ) : HostedSubscriber :=
  let r := processSubscriberData s.current s.history nowMs
  if r.needsUpdate then { s with current := r.current, history := r.history }
  else s

/-- One subscription-lifecycle operation on a hosted subscriber. -/
inductive LedgerOp where
  | add (e : HSubEntry)
  | cancel (refund : ℚ)
  | sweep (nowMs : ℤ)
deriving DecidableEq, Repr

def applyOp (s : HostedSubscriber) : LedgerOp → HostedSubscriber
  | .add e => addNewSubscription s e
  | .cancel refund => handleCancelSubscription s refund
  | .sweep nowMs => applySweep s nowMs

def runOps (s : HostedSubscriber) (ops : List LedgerOp) : HostedSubscriber :=
  ops.foldl applyOp s

/-- Ids of the subscriptions an operation sequence creates. -/
def createdIds : List LedgerOp → List String
  | [] => []
  | .add e :: ops => e.id :: createdIds ops
  | .cancel _ :: ops => createdIds ops
  | .sweep _ :: ops => createdIds ops

/-- Structural invariant of a hosted subscriber: every history entry still
marked active is the installed current subscription, and the current
subscription (when set) already appears in the history. -/
def HistInv (s : HostedSubscriber) : Prop :=
  (∀ e ∈ s.history, e.status = SubStatus.active → s.current = some e) ∧
  ∀ c, s.current = some c → c.id ∈ s.history.map (fun e => e.id)

/-! ## Hosted-backend variant: transaction balance arithmetic -/

/-- Transaction type of the hosted variant (`handleAddTransaction` in
`src/unnamed/part_009`, lines 701-734). -/
inductive HTxType where
  | payment
  | charge
  | refund
deriving DecidableEq, Repr

/-- Embedding of the balance computation of `handleAddTransaction`
(part_009 lines 716-729): under the debt-positive convention a payment or
refund reduces the balance and a charge increases it. -/
def handleAddTransactionBalance (currentBalance : ℚ) (t : HTxType)
    (amount : ℚ) : ℚ :=
  match t with
  | .payment => currentBalance - amount
  | .charge => currentBalance + amount
  | .refund => currentBalance - amount

/-- Debt-positive signed effect of a hosted transaction. -/
def hostedDebtEffect (t : HTxType) (amount : ℚ) : ℚ :=
  match t with
  | .payment => -amount
  | .charge => amount
  | .refund => -amount

/-- Debt-positive signed effect of a storage-variant transaction input,
the convention the spec states for `recordTransaction`. -/
def debtEffect (t : STxType) (amount : ℚ) : ℚ :=
  match t with
  | .payment => -amount
  | .charge => amount

/-! ## Cancellation refund calculators -/

/-- Embedding of `calculateRemainingDays` of the newer cancel dialog
(`src/unnamed/part_005` lines 16-22): floor of the millisecond difference
divided by one day, clamped at 0. -/
def calculateRemainingDaysFloor (endMs nowMs : ℤ) : ℤ :=
  max 0 ⌊((endMs - nowMs : ℤ) : ℚ) / 86400000⌋

/-- Embedding of `autoCalculatedRefund` of the newer cancel dialog
(part_005 lines 30-35): `floor(daysRemaining × pricePerDay)` with
`pricePerDay = (packPrice × duration) / (duration × 30)`. -/
def autoCalculatedRefundFloor (packPrice : ℚ) (duration : Nat)
    (endMs nowMs : ℤ) : ℤ :=
  let totalDays : ℚ := (duration : ℚ) * 30
  let totalCharged : ℚ := packPrice * (duration : ℚ)
  let pricePerDay : ℚ := totalCharged / totalDays
  ⌊(calculateRemainingDaysFloor endMs nowMs : ℚ) * pricePerDay⌋

/-- Embedding of `calculateRemainingDays` of the older cancel dialog
(`CancelSubscriptionDialog.tsx` lines 16-21): a ceiling, with no clamp. -/
def calculateRemainingDaysCeil (endMs nowMs : ℤ) : ℤ :=
  ⌈((endMs - nowMs : ℤ) : ℚ) / 86400000⌉

/-- Embedding of `autoCalculatedRefund` of the older cancel dialog (lines
29-32): `max(0, daysRemaining × packPrice/30)`, with no floor applied to
the product. -/
def autoCalculatedRefundCeil (packPrice : ℚ) (endMs nowMs : ℤ) : ℚ :=
  max 0 ((calculateRemainingDaysCeil endMs nowMs : ℚ) * (packPrice / 30))

/-- Sequential application of `addTransaction` calls to the store. -/
def applyTxs (st : SState) (l : List TxIn) : SState :=
  l.foldl (fun st i => (addTransaction st i).1) st

/-! ## Date arithmetic lemmas -/

theorem daysInMonth_bounds (y m : Nat) :
    28 ≤ daysInMonth y m ∧ daysInMonth y m ≤ 31 := by
  unfold daysInMonth
  split_ifs <;> omega

theorem monthIndex_resolveDayOverflow (y m d : Nat) :
    monthIndex (resolveDayOverflow y m d) = 12 * y + (m - 1) ∨
    monthIndex (resolveDayOverflow y m d) = 12 * y + (m - 1) + 1 := by
  unfold resolveDayOverflow monthIndex
  split
  · exact Or.inl rfl
  · split <;> simp <;> omega

theorem day_resolveDayOverflow_pos (y m : Nat) {d : Nat} (hd : 1 ≤ d)
    (hd' : d ≤ 31) : 1 ≤ (resolveDayOverflow y m d).day ∧
      (resolveDayOverflow y m d).day ≤ 31 := by
  have hb := daysInMonth_bounds y m
  unfold resolveDayOverflow
  split
  · exact ⟨hd, hd'⟩
  · split <;> simp <;> omega

theorem monthIndex_setMonthAdd (dt : Date) (delta : Nat) (hm : 1 ≤ dt.month) :
    monthIndex (setMonthAdd dt delta) = monthIndex dt + delta ∨
    monthIndex (setMonthAdd dt delta) = monthIndex dt + delta + 1 := by
  unfold setMonthAdd
  have h := monthIndex_resolveDayOverflow (dt.year + ((dt.month - 1) + delta) / 12)
    (((dt.month - 1) + delta) % 12 + 1) dt.day
  have hdiv := Nat.div_add_mod ((dt.month - 1) + delta) 12
  unfold monthIndex at *
  omega

theorem monthIndex_setYearAdd (dt : Date) (delta : Nat) :
    monthIndex (setYearAdd dt delta) = monthIndex dt + 12 * delta ∨
    monthIndex (setYearAdd dt delta) = monthIndex dt + 12 * delta + 1 := by
  unfold setYearAdd
  have h := monthIndex_resolveDayOverflow (dt.year + delta) dt.month dt.day
  unfold monthIndex at *
  omega

/-- The next billing date is strictly after the date it is computed from:
its month index advances by at least one, so its chronological key exceeds
that of any date in the source month. -/
theorem calculateNextBillingDate_gt (d : Date) (c : BillingCycle)
    (hv : ValidDate d) : dateLe (calculateNextBillingDate d c) d = false := by
  obtain ⟨hm1, hm2, hd1, hd4⟩ := hv
  have hd31 : d.day ≤ 31 := le_trans hd4 (daysInMonth_bounds d.year d.month).2
  have hkey : monthIndex d + 1 ≤ monthIndex (calculateNextBillingDate d c) ∧
      1 ≤ (calculateNextBillingDate d c).day := by
    cases c
    case monthly =>
      simp only [calculateNextBillingDate]
      have h := monthIndex_setMonthAdd d 1 hm1
      have h2 := day_resolveDayOverflow_pos (d.year + ((d.month - 1) + 1) / 12)
        (((d.month - 1) + 1) % 12 + 1) hd1 hd31
      exact ⟨by omega, h2.1⟩
    case quarterly =>
      simp only [calculateNextBillingDate]
      have h := monthIndex_setMonthAdd d 3 hm1
      have h2 := day_resolveDayOverflow_pos (d.year + ((d.month - 1) + 3) / 12)
        (((d.month - 1) + 3) % 12 + 1) hd1 hd31
      exact ⟨by omega, h2.1⟩
    case semiAnnually =>
      simp only [calculateNextBillingDate]
      have h := monthIndex_setMonthAdd d 6 hm1
      have h2 := day_resolveDayOverflow_pos (d.year + ((d.month - 1) + 6) / 12)
        (((d.month - 1) + 6) % 12 + 1) hd1 hd31
      exact ⟨by omega, h2.1⟩
    case yearly =>
      simp only [calculateNextBillingDate]
      have h := monthIndex_setYearAdd d 1
      have h2 := day_resolveDayOverflow_pos (d.year + 1) d.month hd1 hd31
      exact ⟨by omega, h2.1⟩
  unfold dateLe dateKey
  simp only [decide_eq_false_iff_not, not_le]
  omega


/-! ## Helper lemmas on first-match search and replacement -/

theorem find?_append_cons {α : Type} (pre post : List α) (x : α)
    (p : α → Bool) (hpre : ∀ y ∈ pre, p y = false) (hx : p x = true) :
    (pre ++ x :: post).find? p = some x := by
  induction pre with
  | nil => simp [List.find?, hx]
  | cons a pre ih =>
      have ha : p a = false := hpre a (by simp)
      simp only [List.cons_append, List.find?, ha]
      exact ih (fun y hy => hpre y (by simp [hy]))

theorem updateFirst_append_cons {α : Type} (pre post : List α) (x : α)
    (p : α → Bool) (f : α → α) (hpre : ∀ y ∈ pre, p y = false)
    (hx : p x = true) :
    updateFirst (pre ++ x :: post) p f = pre ++ f x :: post := by
  induction pre with
  | nil => simp [updateFirst, hx]
  | cons a pre ih =>
      have ha : p a = false := hpre a (by simp)
      simp only [List.cons_append, updateFirst, ha, Bool.false_eq_true,
        if_false, List.append_eq]
      rw [ih (fun y hy => hpre y (by simp [hy]))]

theorem updateFirst_of_none {α : Type} (l : List α) (p : α → Bool)
    (f : α → α) (h : ∀ y ∈ l, p y = false) : updateFirst l p f = l := by
  induction l with
  | nil => rfl
  | cons a l ih =>
      have ha : p a = false := h a (by simp)
      simp only [updateFirst, ha, Bool.false_eq_true, if_false]
      rw [ih (fun y hy => h y (by simp [hy]))]

/-! ## Date arithmetic (claim C4) -/

theorem calculateNextBillingDate_eq_setMonthAdd (d : Date) (c : BillingCycle)
    (hm1 : 1 ≤ d.month) (hm2 : d.month ≤ 12) :
    calculateNextBillingDate d c = setMonthAdd d (cycleMonths c) := by
  cases c <;> simp only [calculateNextBillingDate, cycleMonths]
  case yearly =>
    have h1 : d.year + 1 = d.year + ((d.month - 1) + 12) / 12 := by omega
    have h2 : d.month = ((d.month - 1) + 12) % 12 + 1 := by omega
    rw [setYearAdd, setMonthAdd, ← h1, ← h2]

/-- Claim C4 (corrected): `calculateNextBillingDate` performs
`setMonth`-style month arithmetic that preserves the day-of-month when it
exists in the target month, but does NOT clamp at month-end: an invalid
day-of-month overflows into the following month by the excess days.  In
particular 2024-01-31 with cycle monthly yields 2024-03-02, a March date,
not the clamped end-of-February date the spec states. -/
theorem calculateNextBillingDate_month_semantics (d : Date) (c : BillingCycle)
    (hv : ValidDate d) :
    (d.day ≤ daysInMonth (targetMonthAnchor d (cycleMonths c)).year
        (targetMonthAnchor d (cycleMonths c)).month →
      calculateNextBillingDate d c =
        ⟨(targetMonthAnchor d (cycleMonths c)).year,
          (targetMonthAnchor d (cycleMonths c)).month, d.day⟩) ∧
    (daysInMonth (targetMonthAnchor d (cycleMonths c)).year
        (targetMonthAnchor d (cycleMonths c)).month < d.day →
      (calculateNextBillingDate d c).day =
          d.day - daysInMonth (targetMonthAnchor d (cycleMonths c)).year
            (targetMonthAnchor d (cycleMonths c)).month ∧
        monthIndex (calculateNextBillingDate d c) =
          monthIndex (targetMonthAnchor d (cycleMonths c)) + 1) ∧
    calculateNextBillingDate ⟨2024, 1, 31⟩ BillingCycle.monthly = ⟨2024, 3, 2⟩ := by
  obtain ⟨hm1, hm2, _, _⟩ := hv
  rw [calculateNextBillingDate_eq_setMonthAdd d c hm1 hm2]
  refine ⟨?_, ?_, by decide⟩
  · intro h
    simp only [targetMonthAnchor] at h
    simp only [setMonthAdd, resolveDayOverflow, targetMonthAnchor, if_pos h]
  · intro h
    simp only [targetMonthAnchor] at h ⊢
    simp only [setMonthAdd, resolveDayOverflow]
    rw [if_neg (by omega)]
    by_cases hc : ((d.month - 1) + cycleMonths c) % 12 + 1 = 12
    · rw [if_pos hc]
      exact ⟨rfl, by simp only [monthIndex]; omega⟩
    · rw [if_neg hc]
      exact ⟨rfl, by simp only [monthIndex]; omega⟩

theorem calculateNextBillingDate_month_semantics_witness :
    ValidDate ⟨2024, 1, 31⟩ ∧
      calculateNextBillingDate ⟨2024, 1, 31⟩ BillingCycle.monthly =
        ⟨2024, 3, 2⟩ := by
  refine ⟨by decide, ?_⟩
  exact (calculateNextBillingDate_month_semantics ⟨2024, 1, 31⟩
    BillingCycle.monthly (by decide)).2.2

/-- Claim C4 (counterexample): on input 2024-01-31 with cycle monthly the
code returns 2024-03-02 — a date in March — and not the clamped
end-of-February date 2024-02-29 the claim asserts. -/
theorem calculateNextBillingDate_jan31_overflow :
    calculateNextBillingDate ⟨2024, 1, 31⟩ BillingCycle.monthly = ⟨2024, 3, 2⟩
      ∧ (calculateNextBillingDate ⟨2024, 1, 31⟩ BillingCycle.monthly).month ≠ 2
      ∧ calculateNextBillingDate ⟨2024, 1, 31⟩ BillingCycle.monthly ≠
          ⟨2024, 2, 29⟩ := by
  refine ⟨by decide, by decide, by decide⟩

/-! ## Auto-billing idempotency (claim C5) -/

theorem billStep_charged_then_skip (packs : List Pack) (today : Date)
    (s : Subscriber) (hv : ValidDate today)
    (h : ((billStep packs today s).2).isSome = true) :
    (billStep packs today (billStep packs today s).1).2 = none := by
  by_cases hac : s.autoChargeEnabled = true
  case neg =>
    rw [Bool.not_eq_true] at hac
    exfalso
    unfold billStep at h
    rw [hac] at h
    simp at h
  case pos =>
    cases hn : s.nextBillingDate with
    | none =>
        exfalso
        unfold billStep at h
        rw [hac, hn] at h
        simp at h
    | some nbd =>
      cases hc : s.billingCycle with
      | none =>
          exfalso
          unfold billStep at h
          rw [hac, hn, hc] at h
          simp at h
      | some cycle =>
        by_cases hdue : dateLe nbd today = true
        case neg =>
          rw [Bool.not_eq_true] at hdue
          exfalso
          unfold billStep at h
          rw [hac, hn, hc] at h
          simp [hdue] at h
        case pos =>
          have hfst : (billStep packs today s).1 =
              { s with
                  balance := s.balance - getPackPrice packs s.pack,
                  nextBillingDate :=
                    some (calculateNextBillingDate today cycle),
                  lastBillingDate := some today } := by
            unfold billStep
            rw [hac, hn, hc]
            simp [hdue]
          rw [hfst]
          unfold billStep
          simp [hac, hc, calculateNextBillingDate_gt today cycle hv]

/-- Claim C5 (confirmed): a subscriber charged by one `processAutoBilling`
run is skipped by an immediately following run for the same day, because
the first run advanced the next billing date strictly past today. -/
theorem runAutoBilling_second_run_skips (packs : List Pack) (today : Date)
    (subs : List Subscriber) (hv : ValidDate today) (i : Nat)
    (r : Subscriber × Option BillRecord)
    (h1 : (runAutoBilling packs today subs)[i]? = some r)
    (h2 : r.2.isSome = true) :
    ∃ r₂, (runAutoBilling packs today
        ((runAutoBilling packs today subs).map Prod.fst))[i]? = some r₂ ∧
      r₂.2 = none := by
  unfold runAutoBilling at h1 ⊢
  rw [List.getElem?_map] at h1
  rcases Option.map_eq_some'.mp h1 with ⟨s, hs, hr⟩
  refine ⟨billStep packs today (billStep packs today s).1, ?_, ?_⟩
  · rw [List.map_map, List.getElem?_map, List.getElem?_map, hs]
    rfl
  · exact billStep_charged_then_skip packs today s hv (by rw [hr]; exact h2)

theorem runAutoBilling_second_run_skips_witness :
    ValidDate ⟨2024, 1, 15⟩ ∧
    (runAutoBilling [] ⟨2024, 1, 15⟩
        [⟨"s1", "A", "HD", 0, some BillingCycle.monthly, some ⟨2024, 1, 1⟩,
          true, none, none, none⟩])[0]?
      = some (billStep [] ⟨2024, 1, 15⟩
          ⟨"s1", "A", "HD", 0, some BillingCycle.monthly, some ⟨2024, 1, 1⟩,
            true, none, none, none⟩) ∧
    ((billStep [] ⟨2024, 1, 15⟩
        ⟨"s1", "A", "HD", 0, some BillingCycle.monthly, some ⟨2024, 1, 1⟩,
          true, none, none, none⟩).2).isSome = true ∧
    ∃ r₂, (runAutoBilling [] ⟨2024, 1, 15⟩
        ((runAutoBilling [] ⟨2024, 1, 15⟩
          [⟨"s1", "A", "HD", 0, some BillingCycle.monthly, some ⟨2024, 1, 1⟩,
            true, none, none, none⟩]).map Prod.fst))[0]? = some r₂ ∧
      r₂.2 = none := by
  refine ⟨by decide, by rfl, by decide, ?_⟩
  exact runAutoBilling_second_run_skips [] ⟨2024, 1, 15⟩
    [⟨"s1", "A", "HD", 0, some BillingCycle.monthly, some ⟨2024, 1, 1⟩,
      true, none, none, none⟩] (by decide) 0
    (billStep [] ⟨2024, 1, 15⟩
      ⟨"s1", "A", "HD", 0, some BillingCycle.monthly, some ⟨2024, 1, 1⟩,
        true, none, none, none⟩) (by rfl) (by decide)

/-! ## Missing pack still billed as charged (claim C9) -/

/-- Claim C9 (confirmed): a pack name absent from the catalog makes
`getPackPrice` return 0 instead of signalling not-found, so the billing
run records a charge of amount 0 with billing-history status charged for a
due subscriber whose pack no longer resolves; no code path of the billing
loop ever records status failed. -/
theorem getPackPrice_missing_pack_charged_zero (packs : List Pack)
    (today : Date) (s : Subscriber) (nbd : Date) (cycle : BillingCycle)
    (hmiss : ∀ p ∈ packs, (p.name == s.pack) = false)
    (hac : s.autoChargeEnabled = true)
    (hn : s.nextBillingDate = some nbd)
    (hc : s.billingCycle = some cycle)
    (hdue : dateLe nbd today = true) :
    getPackPrice packs s.pack = 0 ∧
    (billStep packs today s).2 =
      some ⟨STxType.charge, 0, BillingStatus.charged, nbd⟩ ∧
    ∀ (packs₂ : List Pack) (today₂ : Date) (s₂ : Subscriber)
      (rec : BillRecord), (billStep packs₂ today₂ s₂).2 = some rec →
        rec.entryStatus = BillingStatus.charged := by
  have hfind : packs.find? (fun p => p.name == s.pack) = none :=
    List.find?_eq_none.mpr (fun p hp => by simp [hmiss p hp])
  have hprice : getPackPrice packs s.pack = 0 := by
    unfold getPackPrice
    rw [hfind]
  refine ⟨hprice, ?_, ?_⟩
  · unfold billStep
    rw [hac, hn, hc]
    simp [hdue, hprice]
  · intro packs₂ today₂ s₂ rec hrec
    by_cases hac₂ : s₂.autoChargeEnabled = true
    case neg =>
      rw [Bool.not_eq_true] at hac₂
      unfold billStep at hrec
      rw [hac₂] at hrec
      simp at hrec
    case pos =>
      cases hn₂ : s₂.nextBillingDate with
      | none =>
          unfold billStep at hrec
          rw [hac₂, hn₂] at hrec
          simp at hrec
      | some nbd₂ =>
        cases hc₂ : s₂.billingCycle with
        | none =>
            unfold billStep at hrec
            rw [hac₂, hn₂, hc₂] at hrec
            simp at hrec
        | some cycle₂ =>
          by_cases hdue₂ : dateLe nbd₂ today₂ = true
          case pos =>
            unfold billStep at hrec
            rw [hac₂, hn₂, hc₂] at hrec
            simp [hdue₂] at hrec
            rw [← hrec]
          case neg =>
            rw [Bool.not_eq_true] at hdue₂
            unfold billStep at hrec
            rw [hac₂, hn₂, hc₂] at hrec
            simp [hdue₂] at hrec

theorem getPackPrice_missing_pack_charged_zero_witness :
    (∀ p ∈ [(⟨"p1", "Basic", 100⟩ : Pack)], (p.name == "Gone") = false) ∧
    getPackPrice [⟨"p1", "Basic", 100⟩] "Gone" = 0 ∧
    (billStep [⟨"p1", "Basic", 100⟩] ⟨2024, 2, 1⟩
        ⟨"s1", "A", "Gone", 50, some BillingCycle.monthly,
          some ⟨2024, 1, 1⟩, true, none, none, none⟩).2 =
      some ⟨STxType.charge, 0, BillingStatus.charged, ⟨2024, 1, 1⟩⟩ := by
  refine ⟨by decide, ?_, ?_⟩
  · exact (getPackPrice_missing_pack_charged_zero [⟨"p1", "Basic", 100⟩]
      ⟨2024, 2, 1⟩
      ⟨"s1", "A", "Gone", 50, some BillingCycle.monthly, some ⟨2024, 1, 1⟩,
        true, none, none, none⟩
      ⟨2024, 1, 1⟩ BillingCycle.monthly (by decide) (by rfl) (by rfl)
      (by rfl) (by decide)).1
  · exact (getPackPrice_missing_pack_charged_zero [⟨"p1", "Basic", 100⟩]
      ⟨2024, 2, 1⟩
      ⟨"s1", "A", "Gone", 50, some BillingCycle.monthly, some ⟨2024, 1, 1⟩,
        true, none, none, none⟩
      ⟨2024, 1, 1⟩ BillingCycle.monthly (by decide) (by rfl) (by rfl)
      (by rfl) (by decide)).2.1

/-! ## Orphan ledger entries (claim C10) -/

/-- Claim C10 (confirmed): when no stored subscriber matches the given
subscriber id, `addTransaction` still appends the transaction to the log
and returns it as if successful, while the subscriber list — hence every
balance — is left unchanged. -/
theorem addTransaction_orphan_ledger_entry (st : SState) (i : TxIn)
    (h : ∀ s ∈ st.subscribers, (s.id == i.subscriberId) = false) :
    (addTransaction st i).1.transactions = st.transactions ++ [i.toTx] ∧
    (addTransaction st i).1.subscribers = st.subscribers ∧
    (addTransaction st i).2 = i.toTx := by
  have hf : st.subscribers.find? (fun s => s.id == i.subscriberId) = none :=
    List.find?_eq_none.mpr (fun x hx => by simp [h x hx])
  unfold addTransaction
  rw [hf]
  exact ⟨rfl, rfl, rfl⟩

theorem addTransaction_orphan_ledger_entry_witness :
    (∀ s ∈ [(⟨"s1", "A", "HD", 7, none, none, false, none, none, none⟩ :
        Subscriber)], (s.id == "ghost") = false) ∧
    (addTransaction
        ⟨[⟨"s1", "A", "HD", 7, none, none, false, none, none, none⟩], []⟩
        ⟨"ghost", "G", STxType.payment, 25, "cash", "t9", "d9"⟩).1.subscribers
      = [⟨"s1", "A", "HD", 7, none, none, false, none, none, none⟩] ∧
    (addTransaction
        ⟨[⟨"s1", "A", "HD", 7, none, none, false, none, none, none⟩], []⟩
        ⟨"ghost", "G", STxType.payment, 25, "cash", "t9", "d9"⟩).1.transactions
      = [TxIn.toTx ⟨"ghost", "G", STxType.payment, 25, "cash", "t9", "d9"⟩] := by
  refine ⟨by decide, ?_, ?_⟩
  · exact (addTransaction_orphan_ledger_entry
      ⟨[⟨"s1", "A", "HD", 7, none, none, false, none, none, none⟩], []⟩
      ⟨"ghost", "G", STxType.payment, 25, "cash", "t9", "d9"⟩
      (by decide)).2.1
  · exact (addTransaction_orphan_ledger_entry
      ⟨[⟨"s1", "A", "HD", 7, none, none, false, none, none, none⟩], []⟩
      ⟨"ghost", "G", STxType.payment, 25, "cash", "t9", "d9"⟩
      (by decide)).1

/-! ## Balance conservation (claim C1) -/

theorem applyTxs_singleton (l : List TxIn) :
    ∀ (s0 : Subscriber) (txs0 : List STransaction),
      (∀ i ∈ l, i.subscriberId = s0.id) →
      (applyTxs ⟨[s0], txs0⟩ l).subscribers
        = [{ s0 with balance :=
            s0.balance - (l.map (fun i => debtEffect i.type i.amount)).sum }] := by
  induction l with
  | nil =>
      intro s0 txs0 _
      simp [applyTxs]
  | cons i l ih =>
      intro s0 txs0 hall
      have hi : (s0.id == i.subscriberId) = true := by
        rw [hall i (by simp)]
        simp
      have hstep : (addTransaction ⟨[s0], txs0⟩ i).1 =
          ⟨[{ s0 with balance := s0.balance - debtEffect i.type i.amount }],
            txs0 ++ [i.toTx]⟩ := by
        unfold addTransaction
        simp only [List.find?, hi, updateFirst, if_true]
        cases htype : i.type <;> simp [debtEffect] <;> ring_nf
      have hfold : applyTxs ⟨[s0], txs0⟩ (i :: l)
          = applyTxs (addTransaction ⟨[s0], txs0⟩ i).1 l := rfl
      rw [hfold, hstep,
        ih { s0 with balance := s0.balance - debtEffect i.type i.amount }
          (txs0 ++ [i.toTx])
          (fun j hj => hall j (List.mem_cons_of_mem i hj))]
      simp only [List.map_cons, List.sum_cons, Subscriber.mk.injEq,
        List.cons.injEq, and_true, true_and, List.nil_eq]
      ring

/-- Claim C1 (corrected): in both variants the balance is the opening
balance plus a signed sum of the transaction effects, but the sign
conventions differ.  The hosted variant (`handleAddTransaction` in
part_009) satisfies the claimed debt-positive convention: charges add,
payments and refunds subtract.  The local-storage variant
(`addTransaction` in storage.ts) uses the opposite convention — payments
add to the balance and charges subtract — so its balance is the opening
balance MINUS the debt-positive signed sum. -/
theorem recordTransaction_balance_conservation :
    (∀ (s0 : Subscriber) (txs0 : List STransaction) (l : List TxIn),
      (∀ i ∈ l, i.subscriberId = s0.id) →
      (applyTxs ⟨[s0], txs0⟩ l).subscribers
        = [{ s0 with balance := s0.balance
              - (l.map (fun i => debtEffect i.type i.amount)).sum }]) ∧
    (∀ (b0 : ℚ) (hl : List (HTxType × ℚ)),
      hl.foldl (fun b p => handleAddTransactionBalance b p.1 p.2) b0
        = b0 + (hl.map (fun p => hostedDebtEffect p.1 p.2)).sum) := by
  constructor
  · intro s0 txs0 l hall
    exact applyTxs_singleton l s0 txs0 hall
  · intro b0 hl
    induction hl generalizing b0 with
    | nil => simp
    | cons p hl ih =>
        rcases p with ⟨t, a⟩
        rw [List.foldl_cons, ih]
        cases t <;>
          simp [handleAddTransactionBalance, hostedDebtEffect] <;> ring

theorem recordTransaction_balance_conservation_witness :
    (∀ i ∈ [(⟨"s1", "A", STxType.payment, 15, "cash", "t1", "d1"⟩ : TxIn)],
      i.subscriberId =
        (⟨"s1", "A", "HD", 40, none, none, false, none, none, none⟩ :
          Subscriber).id) ∧
    (applyTxs
        ⟨[⟨"s1", "A", "HD", 40, none, none, false, none, none, none⟩], []⟩
        [⟨"s1", "A", STxType.payment, 15, "cash", "t1", "d1"⟩]).subscribers
      = [⟨"s1", "A", "HD", 55, none, none, false, none, none, none⟩] := by
  constructor
  · decide
  · have h := recordTransaction_balance_conservation.1
      ⟨"s1", "A", "HD", 40, none, none, false, none, none, none⟩ []
      [⟨"s1", "A", STxType.payment, 15, "cash", "t1", "d1"⟩] (by decide)
    rw [h]
    norm_num [debtEffect]

/-- Claim C1 (counterexample): starting from balance 0, recording one
charge of 100 through the storage-variant `addTransaction` leaves the
balance at -100, not at the +100 the debt-positive claim demands. -/
theorem addTransaction_charge_decreases_balance :
    ((addTransaction
        ⟨[⟨"s1", "A", "HD", 0, none, none, false, none, none, none⟩], []⟩
        ⟨"s1", "A", STxType.charge, 100, "subscription", "t1", "d1"⟩).1.subscribers.map
      (fun s => s.balance)) = [-100] ∧ ¬ ((-100 : ℚ) = 0 + 100) := by
  refine ⟨by simp [addTransaction, updateFirst], by norm_num⟩

/-! ## Transaction edit correctness (claim C6) -/

/-- Claim C6 (amended, proved): for every update that does not reassign
the transaction to a different subscriber, `updateTransaction` reverses the
old signed contribution and applies the new one as one net adjustment, so
the owner balance and the ledger end up exactly as if the updated
transaction had been recorded in place of the original. -/
theorem updateTransaction_substitution
    (st : SState) (txId : String) (u : TxPatch)
    (tpre tpost : List STransaction) (oldT : STransaction)
    (pre post : List Subscriber) (s : Subscriber)
    (htx : st.transactions = tpre ++ oldT :: tpost)
    (htx1 : ∀ t ∈ tpre, (t.id == txId) = false)
    (htx2 : (oldT.id == txId) = true)
    (hsub : st.subscribers = pre ++ s :: post)
    (hs1 : ∀ y ∈ pre, (y.id == oldT.subscriberId) = false)
    (hs2 : (s.id == oldT.subscriberId) = true)
    (hu : u.subscriberId = none) :
    (updateTransaction st txId u).2 = some (TxPatch.merge oldT u) ∧
    (updateTransaction st txId u).1.transactions
      = tpre ++ TxPatch.merge oldT u :: tpost ∧
    (updateTransaction st txId u).1.subscribers
      = pre ++ { s with balance := s.balance - ledgerEffect oldT
          + ledgerEffect (TxPatch.merge oldT u) } :: post ∧
    ∀ b0 : ℚ,
      s.balance = b0 + ((st.transactions.filter
          (fun t => t.subscriberId == s.id)).map ledgerEffect).sum →
      s.balance - ledgerEffect oldT + ledgerEffect (TxPatch.merge oldT u)
        = b0 + (((updateTransaction st txId u).1.transactions.filter
            (fun t => t.subscriberId == s.id)).map ledgerEffect).sum := by
  have hfindT : st.transactions.find? (fun t => t.id == txId) = some oldT := by
    rw [htx]
    exact find?_append_cons tpre tpost oldT _ htx1 htx2
  have hfindS :
      st.subscribers.find? (fun x => x.id == oldT.subscriberId) = some s := by
    rw [hsub]
    exact find?_append_cons pre post s _ hs1 hs2
  have hupdT : updateFirst st.transactions (fun t => t.id == txId)
      (fun _ => TxPatch.merge oldT u) = tpre ++ TxPatch.merge oldT u :: tpost := by
    rw [htx]
    exact updateFirst_append_cons tpre tpost oldT _ _ htx1 htx2
  have hreverse :
      (match oldT.type with
        | STxType.payment => -oldT.amount
        | STxType.charge => oldT.amount) = -ledgerEffect oldT := by
    cases hty : oldT.type <;> simp [ledgerEffect, hty]
  have happly :
      (match (TxPatch.merge oldT u).type with
        | STxType.payment => (TxPatch.merge oldT u).amount
        | STxType.charge => -(TxPatch.merge oldT u).amount)
        = ledgerEffect (TxPatch.merge oldT u) := by
    cases htm : (TxPatch.merge oldT u).type <;> simp [ledgerEffect, htm]
  have hupdS : updateFirst st.subscribers (fun x => x.id == oldT.subscriberId)
      (fun x => { x with balance := x.balance
          + (match oldT.type with
              | STxType.payment => -oldT.amount
              | STxType.charge => oldT.amount)
          + (match (TxPatch.merge oldT u).type with
              | STxType.payment => (TxPatch.merge oldT u).amount
              | STxType.charge => -(TxPatch.merge oldT u).amount) })
      = pre ++ { s with balance := s.balance - ledgerEffect oldT
          + ledgerEffect (TxPatch.merge oldT u) } :: post := by
    rw [hsub, updateFirst_append_cons pre post s _ _ hs1 hs2, hreverse, happly]
    simp [sub_eq_add_neg]
  have hmain : updateTransaction st txId u =
      (⟨pre ++ { s with balance := s.balance - ledgerEffect oldT
            + ledgerEffect (TxPatch.merge oldT u) } :: post,
          tpre ++ TxPatch.merge oldT u :: tpost⟩,
        some (TxPatch.merge oldT u)) := by
    unfold updateTransaction
    rw [hfindT]
    simp only [hfindS, hupdT, hupdS]
  refine ⟨by rw [hmain], by rw [hmain], by rw [hmain], ?_⟩
  intro b0 hb
  have hsid : (oldT.subscriberId == s.id) = true := by
    have heq := beq_iff_eq.mp hs2
    simp [heq]
  have hnid : (TxPatch.merge oldT u).subscriberId = oldT.subscriberId := by
    simp [TxPatch.merge, hu]
  rw [hmain]
  rw [htx] at hb
  simp only [List.filter_append, List.filter_cons, hsid, hnid,
    List.map_append, List.sum_append, List.map_cons, List.sum_cons,
    if_true] at hb ⊢
  rw [hb]
  ring

theorem updateTransaction_substitution_witness :
    ((updateTransaction
        ⟨[⟨"s1", "A", "HD", 10, none, none, false, none, none, none⟩],
          [⟨"t1", "s1", "A", STxType.charge, 5, "c", "d"⟩]⟩ "t1"
        ⟨none, none, none, some STxType.payment, some 7, none, none⟩).1.subscribers.map
      (fun s => s.balance)) = [22] := by
  have h := (updateTransaction_substitution
    ⟨[⟨"s1", "A", "HD", 10, none, none, false, none, none, none⟩],
      [⟨"t1", "s1", "A", STxType.charge, 5, "c", "d"⟩]⟩ "t1"
    ⟨none, none, none, some STxType.payment, some 7, none, none⟩
    [] [] ⟨"t1", "s1", "A", STxType.charge, 5, "c", "d"⟩
    [] [] ⟨"s1", "A", "HD", 10, none, none, false, none, none, none⟩
    rfl (by simp) (by decide) rfl (by simp) (by decide) rfl).2.2.1
  rw [h]
  simp [ledgerEffect, TxPatch.merge]
  norm_num

/-- Claim C6 (counterexample): an update that reassigns the transaction to
another subscriber breaks the as-if-recorded-directly property.  Starting
from a consistent state — subscriber s1 created with balance 15 and one
charge of 5 giving balance 10 — moving that charge to s2 leaves the s1
balance at 10, although with the original transaction gone and the updated
one recorded directly s1 would hold 15 (and s2 would absorb the charge). -/
theorem updateTransaction_subscriberId_change_mismatch :
    ((15 : ℚ) + (([⟨"t1", "s1", "A", STxType.charge, 5, "c", "d"⟩].filter
        (fun t => t.subscriberId == "s1")).map ledgerEffect).sum = 10) ∧
    ((updateTransaction
        ⟨[⟨"s1", "A", "HD", 10, none, none, false, none, none, none⟩,
            ⟨"s2", "B", "HD", 0, none, none, false, none, none, none⟩],
          [⟨"t1", "s1", "A", STxType.charge, 5, "c", "d"⟩]⟩ "t1"
        ⟨none, some "s2", none, none, none, none, none⟩).1.subscribers.map
      (fun s => s.balance)) = [10, 0] ∧
    ((15 : ℚ) + (((updateTransaction
        ⟨[⟨"s1", "A", "HD", 10, none, none, false, none, none, none⟩,
            ⟨"s2", "B", "HD", 0, none, none, false, none, none, none⟩],
          [⟨"t1", "s1", "A", STxType.charge, 5, "c", "d"⟩]⟩ "t1"
        ⟨none, some "s2", none, none, none, none, none⟩).1.transactions.filter
        (fun t => t.subscriberId == "s1")).map ledgerEffect).sum = 15) ∧
    ((10 : ℚ) ≠ 15) := by
  refine ⟨?_, ?_, ?_, by norm_num⟩
  · simp [ledgerEffect]
    norm_num
  · simp [updateTransaction, updateFirst, TxPatch.merge]
  · simp [updateTransaction, updateFirst, TxPatch.merge, ledgerEffect]

/-! ## Expiry sweep (claim C8) -/

/-- Claim C8 (confirmed): for a subscriber whose current subscription has
ended, one run of `processSubscriberData` requests an update that clears
the current subscription and leaves exactly one history entry with that
subscription id, carrying status expired — replacing an existing entry of
that id rather than duplicating it — and a second run on the resulting
state (at any later time) requests no update and changes nothing.  The
no-duplicates hypothesis asks that the id occurs at most once in the
stored history, which every creation path guarantees. -/
theorem expiry_sweep_once_and_idempotent
    (c : HSubEntry) (history : List HSubEntry) (nowMs : ℤ)
    (hexp : isSubscriptionActive (some c) nowMs = false)
    (hcount : history.countP (fun h => h.id == c.id) ≤ 1) :
    (processSubscriberData (some c) history nowMs).needsUpdate = true ∧
    (processSubscriberData (some c) history nowMs).current = none ∧
    (processSubscriberData (some c) history nowMs).history.countP
        (fun h => h.id == c.id) = 1 ∧
    (∀ e ∈ (processSubscriberData (some c) history nowMs).history,
      (e.id == c.id) = true → e.status = SubStatus.expired) ∧
    ((processSubscriberData (some c) history nowMs).history.length
        = history.length ∨
      (processSubscriberData (some c) history nowMs).history.length
        = history.length + 1) ∧
    ∀ nowMs₂ : ℤ,
      processSubscriberData
          (processSubscriberData (some c) history nowMs).current
          (processSubscriberData (some c) history nowMs).history nowMs₂
        = ⟨false, (processSubscriberData (some c) history nowMs).current,
            (processSubscriberData (some c) history nowMs).history⟩ := by
  have hr : processSubscriberData (some c) history nowMs =
      ⟨true, none,
        if history.any (fun h => h.id == c.id) then
          history.map (fun h =>
            if h.id == c.id then { c with status := SubStatus.expired } else h)
        else history ++ [{ c with status := SubStatus.expired }]⟩ := by
    unfold processSubscriberData
    simp [hexp]
  have hqexp : (({ c with status := SubStatus.expired } : HSubEntry).id
      == c.id) = true := by simp
  rw [hr]
  refine ⟨rfl, rfl, ?_, ?_, ?_, fun nowMs₂ => rfl⟩
  · cases hany : history.any (fun h => h.id == c.id) with
    | false =>
        simp only [hany, Bool.false_eq_true, if_false]
        rw [List.countP_append]
        have h0 : history.countP (fun h => h.id == c.id) = 0 := by
          rw [List.countP_eq_zero]
          intro h hh
          have := List.any_eq_false.mp hany h hh
          simpa using this
        simp [h0, hqexp]
    | true =>
        simp only [hany, if_true]
        rw [List.countP_map]
        have h1 : history.countP (fun h => h.id == c.id) = 1 := by
          have hpos : 0 < history.countP (fun h => h.id == c.id) := by
            rcases List.any_eq_true.mp hany with ⟨x, hx, hqx⟩
            exact List.countP_pos_iff.mpr ⟨x, hx, hqx⟩
          omega
        rw [← h1]
        apply List.countP_congr
        intro h _
        by_cases hq : (h.id == c.id) = true
        · simp [hq, Function.comp]
        · simp only [Bool.not_eq_true] at hq
          simp [hq, Function.comp]
  · cases hany : history.any (fun h => h.id == c.id) with
    | false =>
        simp only [hany, Bool.false_eq_true, if_false]
        intro e he hq
        rcases List.mem_append.mp he with he1 | he2
        · have := List.any_eq_false.mp hany e he1
          simp [hq] at this
        · rcases List.mem_singleton.mp he2 with rfl
          rfl
    | true =>
        simp only [hany, if_true]
        intro e he hq
        rcases List.mem_map.mp he with ⟨h, hh, rfl⟩
        by_cases hqh : (h.id == c.id) = true
        · simp [hqh]
        · simp only [Bool.not_eq_true] at hqh
          rw [if_neg (by simp [hqh])] at hq ⊢
          simp [hqh] at hq
  · cases hany : history.any (fun h => h.id == c.id) with
    | false => simp [hany]
    | true => simp [hany]

theorem expiry_sweep_once_and_idempotent_witness :
    isSubscriptionActive (some ⟨"c1", "HD", 100, 0, 1000, 1,
        SubStatus.active, 0⟩) 1000 = false ∧
    ([(⟨"c1", "HD", 100, 0, 1000, 1, SubStatus.active, 0⟩ :
        HSubEntry)].countP (fun h => h.id == "c1") ≤ 1) ∧
    (processSubscriberData
        (some ⟨"c1", "HD", 100, 0, 1000, 1, SubStatus.active, 0⟩)
        [⟨"c1", "HD", 100, 0, 1000, 1, SubStatus.active, 0⟩]
        1000).needsUpdate = true ∧
    (processSubscriberData
        (some ⟨"c1", "HD", 100, 0, 1000, 1, SubStatus.active, 0⟩)
        [⟨"c1", "HD", 100, 0, 1000, 1, SubStatus.active, 0⟩]
        1000).current = none := by
  refine ⟨by decide, by decide, ?_, ?_⟩
  · exact (expiry_sweep_once_and_idempotent
      ⟨"c1", "HD", 100, 0, 1000, 1, SubStatus.active, 0⟩
      [⟨"c1", "HD", 100, 0, 1000, 1, SubStatus.active, 0⟩] 1000
      (by decide) (by decide)).1
  · exact (expiry_sweep_once_and_idempotent
      ⟨"c1", "HD", 100, 0, 1000, 1, SubStatus.active, 0⟩
      [⟨"c1", "HD", 100, 0, 1000, 1, SubStatus.active, 0⟩] 1000
      (by decide) (by decide)).2.1

/-! ## Subscription history completeness (claim C7) -/

theorem applyOp_ids (s : HostedSubscriber) (op : LedgerOp) (hinv : HistInv s) :
    HistInv (applyOp s op) ∧
    (applyOp s op).history.map (fun e => e.id)
      = s.history.map (fun e => e.id) ++ createdIds [op] := by
  cases op with
  | add e =>
      simp only [applyOp, addNewSubscription, createdIds]
      refine ⟨⟨?_, ?_⟩, ?_⟩
      · intro e' he' hact
        rcases List.mem_append.mp he' with h1 | h2
        · rcases List.mem_map.mp h1 with ⟨h, _, rfl⟩
          simp at hact
        · rcases List.mem_singleton.mp h2 with rfl
          rfl
      · intro c hc
        rcases Option.some.inj hc with rfl
        simp
      · simp [List.map_map, Function.comp]
  | cancel refund =>
      simp only [applyOp, handleCancelSubscription, createdIds]
      cases hc : s.current with
      | none =>
          refine ⟨⟨hinv.1, ?_⟩, by simp⟩
          intro c hcc
          exact hinv.2 c hcc
      | some c =>
          refine ⟨⟨?_, ?_⟩, ?_⟩
          · intro e' he' hact
            exfalso
            rcases List.mem_map.mp he' with ⟨h, hh, rfl⟩
            by_cases hqh : (h.id == c.id) = true
            · rw [if_pos hqh] at hact
              simp at hact
            · rw [if_neg hqh] at hact
              have hcur := hinv.1 h hh hact
              rw [hc] at hcur
              rcases Option.some.inj hcur with rfl
              simp at hqh
          · intro c' hc'
            simp at hc'
          · rw [List.map_map]
            have : s.history.map
                ((fun e => e.id) ∘ fun h =>
                  if h.id == c.id then { h with status := SubStatus.cancelled }
                  else h)
                = s.history.map (fun e => e.id) := by
              apply List.map_congr_left
              intro h _
              by_cases hqh : (h.id == c.id) = true
              · simp [Function.comp, hqh]
              · simp [Function.comp, hqh]
            rw [this, List.append_nil]
  | sweep nowMs =>
      simp only [applyOp, applySweep]
      cases hc : s.current with
      | none =>
          simp only [processSubscriberData]
          exact ⟨hinv, by simp [createdIds]⟩
      | some c =>
          by_cases hact : isSubscriptionActive (some c) nowMs = true
          · simp only [processSubscriberData, hact, if_true]
            exact ⟨hinv, by simp [createdIds]⟩
          · rw [Bool.not_eq_true] at hact
            have hmem : c.id ∈ s.history.map (fun e => e.id) := hinv.2 c hc
            have hany : s.history.any (fun h => h.id == c.id) = true := by
              rcases List.mem_map.mp hmem with ⟨h, hh, hid⟩
              exact List.any_eq_true.mpr ⟨h, hh, by simp [hid]⟩
            simp only [processSubscriberData, hact, Bool.false_eq_true,
              if_false, hany, if_true]
            refine ⟨⟨?_, ?_⟩, ?_⟩
            · intro e' he' hact'
              exfalso
              rcases List.mem_map.mp he' with ⟨h, hh, rfl⟩
              by_cases hqh : (h.id == c.id) = true
              · rw [if_pos hqh] at hact'
                simp at hact'
              · rw [if_neg hqh] at hact'
                have hcur := hinv.1 h hh hact'
                rw [hc] at hcur
                rcases Option.some.inj hcur with rfl
                simp at hqh
            · intro c' hc'
              simp at hc'
            · rw [List.map_map]
              have : s.history.map
                  ((fun e => e.id) ∘ fun h =>
                    if h.id == c.id then { c with status := SubStatus.expired }
                    else h)
                  = s.history.map (fun e => e.id) := by
                apply List.map_congr_left
                intro h _
                by_cases hqh : (h.id == c.id) = true
                · simp only [Function.comp, if_pos hqh]
                  have := beq_iff_eq.mp hqh
                  simp [this]
                · simp [Function.comp, hqh]
              rw [this]
              simp [createdIds]

theorem runOps_ids (ops : List LedgerOp) :
    ∀ s : HostedSubscriber, HistInv s →
      HistInv (runOps s ops) ∧
      (runOps s ops).history.map (fun e => e.id)
        = s.history.map (fun e => e.id) ++ createdIds ops := by
  induction ops with
  | nil =>
      intro s h
      exact ⟨h, by simp [runOps, createdIds]⟩
  | cons op ops ih =>
      intro s h
      have hstep := applyOp_ids s op h
      have hrec := ih (applyOp s op) hstep.1
      have hfold : runOps s (op :: ops) = runOps (applyOp s op) ops := rfl
      refine ⟨by rw [hfold]; exact hrec.1, ?_⟩
      rw [hfold, hrec.2, hstep.2]
      cases op <;> simp [createdIds]

/-- Claim C7 (amended, proved): starting from a fresh subscriber, after any
sequence of add/cancel/sweep operations the history ids are exactly the ids
of the subscriptions ever created, in order — no entry duplicated or
dropped, and the length equals the number of creations — and every entry
still marked active is the current subscription.  The claim that a
cancelled entry is never later rewritten to expired does NOT hold: the next
`addNewSubscription` rewrites every history entry, cancelled ones included,
to expired (see the counterexample). -/
theorem subscription_history_completeness (ops : List LedgerOp) (b0 : ℚ) :
    (runOps (HostedSubscriber.init b0) ops).history.map (fun e => e.id)
      = createdIds ops ∧
    (runOps (HostedSubscriber.init b0) ops).history.length
      = (createdIds ops).length ∧
    ∀ e ∈ (runOps (HostedSubscriber.init b0) ops).history,
      e.status = SubStatus.active →
        (runOps (HostedSubscriber.init b0) ops).current = some e := by
  have h0 : HistInv (HostedSubscriber.init b0) := by
    constructor
    · intro e he
      simp [HostedSubscriber.init] at he
    · intro c hc
      simp [HostedSubscriber.init] at hc
  have h := runOps_ids ops (HostedSubscriber.init b0) h0
  have hids : (runOps (HostedSubscriber.init b0) ops).history.map
      (fun e => e.id) = createdIds ops := by
    rw [h.2]
    simp [HostedSubscriber.init]
  refine ⟨hids, ?_, h.1.1⟩
  calc (runOps (HostedSubscriber.init b0) ops).history.length
      = ((runOps (HostedSubscriber.init b0) ops).history.map
          (fun e => e.id)).length := by rw [List.length_map]
    _ = (createdIds ops).length := by rw [hids]

theorem subscription_history_completeness_witness :
    (runOps (HostedSubscriber.init 0)
        [LedgerOp.add ⟨"A", "HD", 100, 0, 1000, 1, SubStatus.active, 0⟩,
          LedgerOp.cancel 0]).history.map (fun e => e.id) = ["A"] := by
  have h := (subscription_history_completeness
    [LedgerOp.add ⟨"A", "HD", 100, 0, 1000, 1, SubStatus.active, 0⟩,
      LedgerOp.cancel 0] 0).1
  rw [h]
  simp [createdIds]

/-- Claim C7 (counterexample): after add A, cancel, add B the history of A
reads cancelled, but the second add rewrites it to expired — a subscription
cancelled earlier IS later rewritten to expired. -/
theorem cancelled_entry_rewritten_to_expired :
    ((runOps (HostedSubscriber.init 0)
        [LedgerOp.add ⟨"A", "HD", 100, 0, 1000, 1, SubStatus.active, 0⟩,
          LedgerOp.cancel 0]).history.map (fun e => e.status))
      = [SubStatus.cancelled] ∧
    ((runOps (HostedSubscriber.init 0)
        [LedgerOp.add ⟨"A", "HD", 100, 0, 1000, 1, SubStatus.active, 0⟩,
          LedgerOp.cancel 0,
          LedgerOp.add ⟨"B", "HD", 100, 1000, 2000, 1, SubStatus.active,
            1000⟩]).history.map (fun e => e.status))
      = [SubStatus.expired, SubStatus.active] := by
  constructor <;>
    simp [runOps, applyOp, addNewSubscription, handleCancelSubscription,
      HostedSubscriber.init]

/-! ## Single active subscription policy (claim C2) -/

/-- Claim C2 (amended, proved): after `addSubscriptionToSubscriber` the
targeted subscriber holds exactly one entry with status active (the fresh
one), so the at-most-one-active invariant holds; but the function never
fails — it silently expires every previous entry and installs the new
subscription.  Only the hosted dialog guard rejects a submission, leaving
the subscriber unchanged, when the current subscription end date is still
in the future; no `ConflictError` value exists anywhere. -/
theorem single_active_subscription_policy
    (subscribers : List Subscriber) (packs : List Pack)
    (subscriberId packName : String) (duration : Nat) (now : Date)
    (newId : String) (pre post : List Subscriber) (s : Subscriber)
    (hsub : subscribers = pre ++ s :: post)
    (hs1 : ∀ y ∈ pre, (y.id == subscriberId) = false)
    (hs2 : (s.id == subscriberId) = true) :
    (addSubscriptionToSubscriber subscribers packs subscriberId packName
        duration now newId
      = pre ++ { s with
          subscriptions := some
            ((s.subscriptions.getD []).map
                (fun e => { e with status := SubStatus.expired })
              ++ [⟨newId, packName, getPackPrice packs packName, now,
                    setMonthAdd now duration, duration, SubStatus.active,
                    now⟩]),
          currentSubscription := some ⟨newId, packName,
            getPackPrice packs packName, now, setMonthAdd now duration,
            duration, SubStatus.active, now⟩,
          pack := packName } :: post) ∧
    (((s.subscriptions.getD []).map
          (fun e : SSubEntry => { e with status := SubStatus.expired })
        ++ [(⟨newId, packName, getPackPrice packs packName, now,
              setMonthAdd now duration, duration, SubStatus.active, now⟩ :
            SSubEntry)]).countP
        (fun e : SSubEntry => e.status == SubStatus.active) = 1) ∧
    ∀ (hs : HostedSubscriber) (nowMs : ℤ) (e : HSubEntry),
      hasActiveSubscription hs nowMs = true →
        handleSubmit hs nowMs e = (hs, true) := by
  have hfind : subscribers.find? (fun x => x.id == subscriberId) = some s := by
    rw [hsub]
    exact find?_append_cons pre post s _ hs1 hs2
  refine ⟨?_, ?_, ?_⟩
  · unfold addSubscriptionToSubscriber
    rw [hfind]
    simp only [hsub, updateFirst_append_cons pre post s _ _ hs1 hs2]
  · rw [List.countP_append]
    have h0 : ((s.subscriptions.getD []).map
        (fun e : SSubEntry => { e with status := SubStatus.expired })).countP
        (fun e : SSubEntry => e.status == SubStatus.active) = 0 := by
      rw [List.countP_eq_zero]
      intro e he
      rcases List.mem_map.mp he with ⟨x, _, rfl⟩
      simp
    rw [h0]
    simp
  · intro hs nowMs e hact
    unfold handleSubmit
    rw [if_pos hact]

theorem single_active_subscription_policy_witness :
    (∀ y ∈ ([] : List Subscriber), (y.id == "s1") = false) ∧
    ((((⟨"s1", "A", "Old", 0, none, none, false, none,
          some [⟨"old", "Old", 100, ⟨2024, 1, 1⟩, ⟨2024, 6, 1⟩, 5,
            SubStatus.active, ⟨2024, 1, 1⟩⟩],
          some ⟨"old", "Old", 100, ⟨2024, 1, 1⟩, ⟨2024, 6, 1⟩, 5,
            SubStatus.active, ⟨2024, 1, 1⟩⟩⟩ :
        Subscriber).subscriptions.getD []).map
          (fun e : SSubEntry => { e with status := SubStatus.expired })
        ++ [(⟨"new1", "New", 200, ⟨2024, 3, 1⟩,
              setMonthAdd ⟨2024, 3, 1⟩ 1, 1, SubStatus.active,
              ⟨2024, 3, 1⟩⟩ : SSubEntry)]).countP
        (fun e : SSubEntry => e.status == SubStatus.active) = 1) := by
  refine ⟨by simp, ?_⟩
  have h := (single_active_subscription_policy
    [⟨"s1", "A", "Old", 0, none, none, false, none,
        some [⟨"old", "Old", 100, ⟨2024, 1, 1⟩, ⟨2024, 6, 1⟩, 5,
          SubStatus.active, ⟨2024, 1, 1⟩⟩],
        some ⟨"old", "Old", 100, ⟨2024, 1, 1⟩, ⟨2024, 6, 1⟩, 5,
          SubStatus.active, ⟨2024, 1, 1⟩⟩⟩]
    [⟨"p1", "New", 200⟩] "s1" "New" 1 ⟨2024, 3, 1⟩ "new1" [] []
    ⟨"s1", "A", "Old", 0, none, none, false, none,
        some [⟨"old", "Old", 100, ⟨2024, 1, 1⟩, ⟨2024, 6, 1⟩, 5,
          SubStatus.active, ⟨2024, 1, 1⟩⟩],
        some ⟨"old", "Old", 100, ⟨2024, 1, 1⟩, ⟨2024, 6, 1⟩, 5,
          SubStatus.active, ⟨2024, 1, 1⟩⟩⟩
    rfl (by simp) (by decide)).2.1
  have hp : getPackPrice [(⟨"p1", "New", 200⟩ : Pack)] "New" = 200 := by
    simp [getPackPrice]
  rw [hp] at h
  exact h

/-- Claim C2 (counterexample): a subscriber with an undisputedly active
current subscription is nevertheless rewritten by
`addSubscriptionToSubscriber` — the pack and current subscription change
and no error of any kind is signalled, where the claim demands a
`ConflictError` with the state left unchanged. -/
theorem addSubscriptionToSubscriber_no_conflict_error :
    (((⟨"s1", "A", "Old", 0, none, none, false, none,
        some [⟨"old", "Old", 100, ⟨2024, 1, 1⟩, ⟨2024, 6, 1⟩, 5,
          SubStatus.active, ⟨2024, 1, 1⟩⟩],
        some ⟨"old", "Old", 100, ⟨2024, 1, 1⟩, ⟨2024, 6, 1⟩, 5,
          SubStatus.active, ⟨2024, 1, 1⟩⟩⟩ :
      Subscriber).subscriptions.getD []).countP
        (fun e => e.status == SubStatus.active) = 1) ∧
    ((addSubscriptionToSubscriber
        [⟨"s1", "A", "Old", 0, none, none, false, none,
            some [⟨"old", "Old", 100, ⟨2024, 1, 1⟩, ⟨2024, 6, 1⟩, 5,
              SubStatus.active, ⟨2024, 1, 1⟩⟩],
            some ⟨"old", "Old", 100, ⟨2024, 1, 1⟩, ⟨2024, 6, 1⟩, 5,
              SubStatus.active, ⟨2024, 1, 1⟩⟩⟩]
        [⟨"p1", "New", 200⟩] "s1" "New" 1 ⟨2024, 3, 1⟩ "new1").map
      (fun x => x.pack)) = ["New"] ∧
    ((addSubscriptionToSubscriber
        [⟨"s1", "A", "Old", 0, none, none, false, none,
            some [⟨"old", "Old", 100, ⟨2024, 1, 1⟩, ⟨2024, 6, 1⟩, 5,
              SubStatus.active, ⟨2024, 1, 1⟩⟩],
            some ⟨"old", "Old", 100, ⟨2024, 1, 1⟩, ⟨2024, 6, 1⟩, 5,
              SubStatus.active, ⟨2024, 1, 1⟩⟩⟩]
        [⟨"p1", "New", 200⟩] "s1" "New" 1 ⟨2024, 3, 1⟩ "new1").map
      (fun x => x.currentSubscription.map (fun e => e.id))) = [some "new1"] ∧
    ("New" : String) ≠ "Old" := by
  refine ⟨by decide, ?_, ?_, by decide⟩ <;>
    simp [addSubscriptionToSubscriber, updateFirst, getPackPrice]

/-! ## Cancellation refund (claim C3) -/

/-- Claim C3 (amended, proved): the auto-calculated refund of the newer
dialog is never negative, and is bounded by `packPrice × duration` whenever
the remaining days do not exceed `duration × 30`; the ceiling-variant
refund of the older dialog is also never negative.  Because `endDate` is
`startDate` plus calendar months, the remaining days can reach 31 per
month, and then the refund exceeds `packPrice × duration` (see the
counterexample), so the unconditional bound of the claim fails. -/
theorem computeRefund_nonneg_and_bound (packPrice : ℚ) (duration : Nat)
    (endMs nowMs : ℤ) (hp : 0 ≤ packPrice) :
    0 ≤ autoCalculatedRefundFloor packPrice duration endMs nowMs ∧
    (calculateRemainingDaysFloor endMs nowMs ≤ 30 * duration →
      (autoCalculatedRefundFloor packPrice duration endMs nowMs : ℚ)
        ≤ packPrice * duration) ∧
    0 ≤ autoCalculatedRefundCeil packPrice endMs nowMs := by
  have hr0 : (0 : ℤ) ≤ calculateRemainingDaysFloor endMs nowMs :=
    le_max_left 0 _
  have hppd : (0 : ℚ) ≤ packPrice * (duration : ℚ) / ((duration : ℚ) * 30) :=
    div_nonneg (mul_nonneg hp (by positivity)) (by positivity)
  refine ⟨?_, ?_, le_max_left 0 _⟩
  · unfold autoCalculatedRefundFloor
    apply Int.floor_nonneg.mpr
    exact mul_nonneg (by exact_mod_cast hr0) hppd
  · intro hr
    rcases Nat.eq_zero_or_pos duration with hd | hd
    · subst hd
      simp [autoCalculatedRefundFloor]
    · simp only [autoCalculatedRefundFloor]
      have hdq : (0 : ℚ) < (duration : ℚ) := by positivity
      have hsimp : packPrice * (duration : ℚ) / ((duration : ℚ) * 30)
          = packPrice / 30 := by
        rw [mul_comm packPrice ((duration : ℚ))]
        rw [mul_div_mul_left _ _ (ne_of_gt hdq)]
      rw [hsimp]
      have hb : ((calculateRemainingDaysFloor endMs nowMs : ℚ))
          * (packPrice / 30) ≤ packPrice * (duration : ℚ) := by
        have hrq : ((calculateRemainingDaysFloor endMs nowMs : ℚ))
            ≤ 30 * (duration : ℚ) := by exact_mod_cast hr
        calc ((calculateRemainingDaysFloor endMs nowMs : ℚ))
            * (packPrice / 30)
            ≤ (30 * (duration : ℚ)) * (packPrice / 30) :=
              mul_le_mul_of_nonneg_right hrq (by positivity)
          _ = packPrice * (duration : ℚ) := by ring
      exact le_trans (Int.floor_le _) hb


theorem computeRefund_nonneg_and_bound_witness :
    ((0 : ℚ) ≤ 300) ∧
    0 ≤ autoCalculatedRefundFloor 300 3 (10 * 86400000) 0 ∧
    (calculateRemainingDaysFloor (10 * 86400000) 0 ≤ 30 * 3 →
      (autoCalculatedRefundFloor 300 3 (10 * 86400000) 0 : ℚ) ≤ 300 * 3) ∧
    calculateRemainingDaysFloor (10 * 86400000) 0 = 10 ∧
    autoCalculatedRefundFloor 300 3 (10 * 86400000) 0 = 100 := by
  have h := computeRefund_nonneg_and_bound 300 3 (10 * 86400000) 0
    (by norm_num)
  have hdays : calculateRemainingDaysFloor (10 * 86400000) 0 = 10 := by
    unfold calculateRemainingDaysFloor
    norm_num
  refine ⟨by norm_num, h.1, h.2.1, hdays, ?_⟩
  unfold autoCalculatedRefundFloor
  rw [hdays]
  norm_num

/-- Claim C3 (counterexample): with a pack price of 300, duration one month
and 31 whole days remaining — exactly what a one-month subscription
cancelled at its start yields when the month has 31 days — the
auto-calculated refund is 310, exceeding `packPrice × duration = 300`.
Additionally the older dialog deviates from the floor-based formula the
claim states: with half a day remaining it refunds 10 (ceiling of the days,
no floor on the product) where the floor formula yields 0. -/
theorem computeRefund_exceeds_total_charged :
    autoCalculatedRefundFloor 300 1 (31 * 86400000) 0 = 310 ∧
    ¬ ((autoCalculatedRefundFloor 300 1 (31 * 86400000) 0 : ℚ) ≤ 300 * 1) ∧
    autoCalculatedRefundCeil 300 43200000 0 = 10 ∧
    calculateRemainingDaysFloor 43200000 0 = 0 ∧
    autoCalculatedRefundFloor 300 1 43200000 0 = 0 := by
  have hdays : calculateRemainingDaysFloor (31 * 86400000) 0 = 31 := by
    unfold calculateRemainingDaysFloor
    norm_num
  have h310 : autoCalculatedRefundFloor 300 1 (31 * 86400000) 0 = 310 := by
    unfold autoCalculatedRefundFloor
    rw [hdays]
    norm_num
  have hhalf : calculateRemainingDaysFloor 43200000 0 = 0 := by
    unfold calculateRemainingDaysFloor
    norm_num
  refine ⟨h310, by rw [h310]; norm_num, ?_, hhalf, ?_⟩
  · unfold autoCalculatedRefundCeil calculateRemainingDaysCeil
    norm_num
    rw [Int.ceil_eq_iff]
    constructor <;> norm_num
  · unfold autoCalculatedRefundFloor
    rw [hhalf]
    norm_num

end CableSub
